import Mathlib

/-!
Verification development for the chess-fragments platform.

Shallow embedding of the match pipeline: the shared constants module
(`src/shared/constants.py`), the executor registry
(`src/executor/executor_registry.py`), the live-agent bridge
(`src/executor/sandbox/hybrid_executor.py`), the hybrid match executor
(`src/executor/sandbox/hybrid_match_executor.py`), the match runner and
matchmaking scheduler (`src/executor/tasks/match_runner.py`) and the
Swiss round bookkeeping (`src/executor/tasks/tournament_runner.py`).

Conventions of the embedding:
- durations are carried in integer milliseconds (the Python code carries
  float seconds; every comparison and stored value in the claims is at
  millisecond granularity, so `elapsed` in seconds is represented by
  `elapsedMs` with `elapsed = elapsedMs / 1000`);
- `random.randint(0, 90)` and the scheduler's pair selection are modelled
  by oracle parameters (the drawn value / the chosen pairing per attempt);
- the chess engine (`list_legal_moves_for`, `copy_piece_move`,
  `get_result`), an external collaborator per the spec, is modelled by an
  oracle environment describing what it reports on each ply;
- the database is a pure store and each runner code path is embedded as
  the list of SQL operations it issues, applied to the store in order.
-/

/-! ## `src/shared/constants.py` -/

/-- `SYSTEM_TIMEOUT_SECONDS = 16` (constants.py line 5). -/
def SYSTEM_TIMEOUT_SECONDS : Nat := 16

/-- `AGENT_TOLD_TIMEOUT = 14` (constants.py line 6). -/
def AGENT_TOLD_TIMEOUT : Nat := 14

/-- `cap_move_time(move_time_ms)` (constants.py lines 14-23).
`rand` is the oracle value drawn by `random.randint(0, 90)`; theorems
about the function constrain it to the interval the call produces. -/
def cap_move_time (rand : Nat) (move_time_ms : Nat) : Nat :=
  let told_timeout_ms := AGENT_TOLD_TIMEOUT * 1000
  if move_time_ms > told_timeout_ms then 13900 + rand else move_time_ms

/-! ## `src/executor/executor_registry.py` -/

/-- The fields of an active-executor record that `get_match_limit` reads
(executor_registry.py lines 122-129): only `matches_per_executor`
matters for capacity. -/
structure ExecutorInfo where
  matches_per_executor : Nat
deriving DecidableEq, Repr

/-- `FALLBACK_MAX_MATCHES = 8` (executor_registry.py line 22). -/
def FALLBACK_MAX_MATCHES : Nat := 8

/-- `ExecutorRegistry.get_match_limit` (executor_registry.py lines
140-164). The argument is the outcome of `get_active_executors()`:
`none` models a `redis.RedisError` raised by the query, `some es` the
returned list of active executors. -/
def get_match_limit (active : Option (List ExecutorInfo)) : Nat :=
  match active with
  | none => FALLBACK_MAX_MATCHES
  | some executors =>
    if executors.isEmpty then FALLBACK_MAX_MATCHES
    else (executors.map (fun e => e.matches_per_executor)).sum

/-! ## `src/executor/tasks/tournament_runner.py` -/

/-- `calculate_total_rounds(num_agents)` (tournament_runner.py lines
238-246). `math.ceil(math.log2(num_agents))` is modelled exactly by
`Nat.clog 2` (the float computation is exact at these magnitudes). -/
def calculate_total_rounds (num_agents : Nat) : Nat :=
  if num_agents < 2 then 0
  else min (max 3 (Nat.clog 2 num_agents)) (num_agents - 1)

/-! ## Theorems: capacity and round bookkeeping -/

/-- Helper: `Nat.clog 2 n` is the least `r` with `n ≤ 2 ^ r`. -/
theorem clog_two_eq_of_least (n r : Nat)
    (hup : n ≤ 2 ^ r) (hleast : ∀ s < r, 2 ^ s < n) :
    Nat.clog 2 n = r := by
  have hle : Nat.clog 2 n ≤ r := (Nat.le_pow_iff_clog_le one_lt_two).mp hup
  rcases lt_or_eq_of_le hle with hlt | heq
  · exfalso
    have hbig : 2 ^ Nat.clog 2 n < n := hleast _ hlt
    have hsmall : n ≤ 2 ^ Nat.clog 2 n := Nat.le_pow_clog one_lt_two n
    omega
  · exact heq

/-- C10: `cap_move_time` is the identity on inputs ≤ 14000 ms; on inputs
strictly above 14000 ms it returns a value in [13900, 13990]; hence it
never returns more than the told timeout of 14000 ms. -/
theorem cap_move_time_bounds :
    (∀ rand t, t ≤ 14000 → cap_move_time rand t = t) ∧
    (∀ rand t, rand ≤ 90 → t > 14000 →
      13900 ≤ cap_move_time rand t ∧ cap_move_time rand t ≤ 13990) ∧
    (∀ rand t, rand ≤ 90 → cap_move_time rand t ≤ 14000) := by
  refine ⟨?_, ?_, ?_⟩ <;>
    intro rand t <;> simp only [cap_move_time, AGENT_TOLD_TIMEOUT] <;>
    intros <;> split <;> omega

/-- Witness for `cap_move_time_bounds` at concrete inputs. -/
theorem cap_move_time_bounds_witness :
    cap_move_time 37 9000 = 9000 ∧
    (13900 ≤ cap_move_time 37 20000 ∧ cap_move_time 37 20000 ≤ 13990) ∧
    cap_move_time 37 20000 ≤ 14000 := by
  refine ⟨?_, ?_, ?_⟩
  · exact cap_move_time_bounds.1 37 9000 (by decide)
  · exact cap_move_time_bounds.2.1 37 20000 (by decide) (by decide)
  · exact cap_move_time_bounds.2.2 37 20000 (by decide)

/-- C5: `get_match_limit` returns the sum of `matches_per_executor` over
the active executors; an empty active set yields the fallback constant;
a bus error also yields the fallback instead of raising; with exactly
one active executor reporting `matches_per_executor = k` it returns `k`. -/
theorem get_match_limit_spec :
    (∀ executors : List ExecutorInfo, executors ≠ [] →
      get_match_limit (some executors) =
        (executors.map (fun e => e.matches_per_executor)).sum) ∧
    get_match_limit (some []) = FALLBACK_MAX_MATCHES ∧
    get_match_limit none = FALLBACK_MAX_MATCHES ∧
    (∀ k, get_match_limit (some [⟨k⟩]) = k) := by
  refine ⟨?_, rfl, rfl, ?_⟩
  · intro executors hne
    simp [get_match_limit, List.isEmpty_iff, hne]
  · intro k
    simp [get_match_limit]

/-- Witness for `get_match_limit_spec`: two executors reporting 4 and 3
give capacity 7. -/
theorem get_match_limit_spec_witness :
    get_match_limit (some [⟨4⟩, ⟨3⟩]) = 7 := by
  have h := get_match_limit_spec.1 [⟨4⟩, ⟨3⟩] (by simp)
  simpa using h

/-- C9: for every bracket of `n ≥ 2` players the Swiss controller's total
round count is `min (max 3 r) (n - 1)` where `r` is the ceiling of
`log2 n`, characterized as the least `r` with `n ≤ 2 ^ r`. -/
theorem calculate_total_rounds_spec (n r : Nat) (h2 : 2 ≤ n)
    (hup : n ≤ 2 ^ r) (hleast : ∀ s < r, 2 ^ s < n) :
    calculate_total_rounds n = min (max 3 r) (n - 1) := by
  unfold calculate_total_rounds
  rw [if_neg (by omega), clog_two_eq_of_least n r hup hleast]

/-- Witness for `calculate_total_rounds_spec`: with 5 players the ceiling
of `log2 5` is 3 and the controller uses `min (max 3 3) 4 = 3` rounds. -/
theorem calculate_total_rounds_spec_witness :
    calculate_total_rounds 5 = min (max 3 3) 4 :=
  calculate_total_rounds_spec 5 3 (by decide) (by decide)
    (by decide)

/-! ## `src/executor/sandbox/hybrid_executor.py` — the live-agent bridge -/

/-- The move payload carried by a `move` reply (`payload.get('move')`). -/
structure MoveData where
  piece_x : Int
  piece_y : Int
  move_x : Int
  move_y : Int
deriving DecidableEq, Repr

/-- One pub/sub message consumed by `LocalAgentBridge.request_move`
(hybrid_executor.py lines 80-124), tagged with the channel it arrived
on. `moveMsg` carries the agent's optional self-reported `elapsed` (in
ms); `malformed` is a frame whose JSON decode fails (line 126), which
the loop skips. -/
inductive BridgeMsg where
  | moveMsg (move : MoveData) (agentElapsedMs : Option Nat)
  | timeoutMsg
  | errorMsg (msg : String)
  | disconnectedMsg (reason : String)
  | discChannelMsg (reason : String)
  | malformed
deriving DecidableEq, Repr

/-- Outcome of `request_move`: the returned triple
`(move_data, elapsed, explicit_timeout)`, or the raised
`AgentDisconnectedError`. -/
inductive BridgeOutcome where
  | moveAccepted (move : MoveData) (elapsedMs : Nat) (explicitTimeout : Bool)
  | timeoutReply (elapsedMs : Nat)
  | errorReply (elapsedMs : Nat)
  | disconnected (reason : String)
deriving DecidableEq, Repr

/-- The elapsed value returned with a move (hybrid_executor.py lines
98-107): the agent's reported time is trusted unless it is below 1 ms
(then the server-measured time is used); a report above server time + 1 s
is logged but still used. `serverMs` is the server-measured elapsed at
receipt. -/
def chooseElapsed (agentElapsedMs : Option Nat) (serverMs : Nat) : Nat :=
  match agentElapsedMs with
  | some a => if a < 1 then serverMs else a
  | none => serverMs

/-- The message-consumption loop of `request_move` (hybrid_executor.py
lines 80-128). Each list element pairs a message with the
server-measured elapsed time at which it is processed. `moveReceived`
mirrors the `move_received` flag guarding the disconnect-channel race
(lines 117-124). Returns `none` when the wait expires with no decisive
message. -/
def requestMoveLoop : List (BridgeMsg × Nat) → Bool → Option BridgeOutcome
  | [], _ => none
  | (m, serverMs) :: rest, moveReceived =>
    match m with
    | .moveMsg mv agentElapsedMs =>
      some (.moveAccepted mv (chooseElapsed agentElapsedMs serverMs) false)
    | .timeoutMsg => some (.timeoutReply serverMs)
    | .errorMsg _ => some (.errorReply serverMs)
    | .disconnectedMsg reason => some (.disconnected reason)
    | .discChannelMsg reason =>
      if moveReceived then requestMoveLoop rest moveReceived
      else some (.disconnected reason)
    | .malformed => requestMoveLoop rest moveReceived

/-- The wait-expiry fallback of `request_move` (hybrid_executor.py lines
135-152): on no reply it reads the agent's presence hash; a missing or
non-`connected`/`in_game` status raises `AgentDisconnectedError`,
otherwise the call returns an implicit timeout. `presence` is the value
of `hget('local_agent:{agent_id}', 'status')` (`none` = key absent) and
`presenceReadOk` is false when the status read itself raised. -/
def request_move (msgs : List (BridgeMsg × Nat)) (presence : Option String)
    (presenceReadOk : Bool) (totalElapsedMs : Nat) : BridgeOutcome :=
  match requestMoveLoop msgs false with
  | some outcome => outcome
  | none =>
    if presenceReadOk &&
        !(presence = some "connected" || presence = some "in_game") then
      .disconnected "Agent disconnected during move timeout"
    else
      .timeoutReply totalElapsedMs

/-- `LocalAgentManager.handle_move` resolves the pending future only when
it is not already done (local_agent_server.py lines 384-393): the first
resolution sticks. `current` is the future's state before the call. -/
def setFutureResult (current : Option BridgeOutcome) (incoming : BridgeOutcome) :
    Option BridgeOutcome :=
  match current with
  | some r => some r
  | none => some incoming

/-- C1: for a `request_move` wait under a fresh request id, the first
decisive message consumed decides the outcome — the loop's result on
`(m, t) :: rest` does not depend on `rest` when `m` is decisive, so at
most one reply is consumed; in particular a valid `move` followed by a
`disconnect` event (in either order of channels, with any suffix) yields
the move, the disconnect being ignored; and a second resolution of the
per-request future leaves the first result in place. -/
theorem request_move_first_reply_wins :
    (∀ (m : BridgeMsg) (t : Nat) (rest rest' : List (BridgeMsg × Nat)),
      m ≠ .malformed →
      requestMoveLoop ((m, t) :: rest) false =
        requestMoveLoop ((m, t) :: rest') false) ∧
    (∀ (mv : MoveData) (ae : Option Nat) (t t' : Nat) (reason : String)
        (rest : List (BridgeMsg × Nat)),
      requestMoveLoop
          ((.moveMsg mv ae, t) :: (.discChannelMsg reason, t') :: rest) false =
        some (.moveAccepted mv (chooseElapsed ae t) false)) ∧
    (∀ r incoming : BridgeOutcome, setFutureResult (some r) incoming = some r) := by
  refine ⟨?_, ?_, ?_⟩
  · intro m t rest rest' hm
    cases m <;> simp_all [requestMoveLoop]
  · intro mv ae t t' reason rest
    simp [requestMoveLoop]
  · intro r incoming
    rfl

/-- Witness for `request_move_first_reply_wins`: a concrete timeout reply
decides independently of the suffix, and a concrete move followed by a
disconnect stands. -/
theorem request_move_first_reply_wins_witness :
    requestMoveLoop [(.timeoutMsg, 2000), (.discChannelMsg "gone", 2500)] false =
      requestMoveLoop [(.timeoutMsg, 2000)] false ∧
    requestMoveLoop
        [(.moveMsg ⟨0, 1, 2, 3⟩ (some 1200), 1500),
         (.discChannelMsg "gone", 1600)] false =
      some (.moveAccepted ⟨0, 1, 2, 3⟩ (chooseElapsed (some 1200) 1500) false) := by
  constructor
  · exact request_move_first_reply_wins.1 .timeoutMsg 2000
      [(.discChannelMsg "gone", 2500)] [] (by simp)
  · exact request_move_first_reply_wins.2.1 ⟨0, 1, 2, 3⟩ (some 1200) 1500 1600
      "gone" []

/-! ## `src/executor/sandbox/hybrid_match_executor.py` — per-ply step -/

/-- One recorded game-state dict appended by `run_hybrid_match`
(hybrid_match_executor.py lines 261-266, 284-289, 307-312, 333-338,
373-378). `move_label` models the source's `notation` key; the serialized
`board_state` (a pure engine serialization) is carried opaquely as the
label-producing environment already fixes it, so it is omitted here. -/
structure GameStateRow where
  move_number : Nat
  move_time_ms : Nat
  move_label : String
deriving DecidableEq, Repr

/-- The result dict `run_hybrid_match` returns (hybrid_match_executor.py
lines 37-46). -/
structure MatchResult where
  winner : Option String
  moves : Nat
  termination : String
  game_states : List GameStateRow
deriving DecidableEq, Repr

/-- What `get_agent_move` produces for one ply (hybrid_executor.py lines
179-252): either the `AgentDisconnectedError` propagates, or the tuple
`(piece, move, elapsed, explicit_timeout)` comes back. `pieceOwner` is
the `.player.name` of the returned piece (`none` when the piece is
`None`), `hasMoveOpt` whether the move option is non-`None`. -/
inductive AgentReply where
  | disconnected (reason : String)
  | reply (pieceOwner : Option String) (hasMoveOpt : Bool)
      (elapsedMs : Nat) (explicitTimeout : Bool)
deriving DecidableEq, Repr

/-- The engine's report for one loop iteration of `run_hybrid_match`
(an external collaborator, abstracted per ply): how many legal moves the
mover has (line 146), whether an exception escapes the `try` body (line
412), the agent's reply, whether `copy_piece_move` validates the move
(line 323), the notation string recorded for the applied move (lines
362-368), how many legal moves the next player then has (line 385), and
the `get_result` string (line 390). -/
structure PlyEnv where
  legalMoves : Nat
  plyRaises : Option String
  agentReply : AgentReply
  copySucceeds : Bool
  appliedLabel : String
  nextLegalMoves : Nat
  gameResult : Option String
deriving DecidableEq, Repr

/-- `'Stalemate' in game_result` (hybrid_match_executor.py line 394):
Python substring membership. -/
def containsStalemate (s : String) : Bool :=
  (s.splitOn "Stalemate").length ≠ 1

/-- What one iteration of the `while moves < max_moves` loop does:
either the loop `break`s with a final result, or it continues with the
game-state list extended by the applied ply. -/
inductive PlyStep where
  | finished (result : MatchResult)
  | nextPly (game_states : List GameStateRow)
deriving DecidableEq, Repr

/-- One iteration of the match loop of `run_hybrid_match`
(hybrid_match_executor.py lines 140-425), for the mover given by
`playerIsWhite`, after `moves` has been incremented (line 143).
`agentTimeoutMs` is `AGENT_TIMEOUT_SECONDS * 1000` (line 27, default
14000) and the check buffer is the 1000 ms of `TIMEOUT_CHECK_BUFFER`
(line 30). -/
def plyStep (agentTimeoutMs : Nat) (playerIsWhite : Bool) (env : PlyEnv)
    (moves : Nat) (game_states : List GameStateRow) : PlyStep :=
  let playerName := if playerIsWhite then "white" else "black"
  let opponent := if playerIsWhite then "black" else "white"
  let invalidTerm := if playerIsWhite then "white_invalid" else "black_invalid"
  let errorTerm := if playerIsWhite then "white_error" else "black_error"
  match env.plyRaises with
  | some _ =>
    .finished ⟨some opponent, moves, errorTerm, game_states⟩
  | none =>
    if env.legalMoves = 0 then
      .finished ⟨some opponent, moves, "no_moves", game_states⟩
    else
      match env.agentReply with
      | .disconnected _ =>
        .finished ⟨none, 0, "cancelled", []⟩
      | .reply pieceOwner hasMoveOpt elapsedMs explicitTimeout =>
        let move_time_ms := elapsedMs
        let timed_out := explicitTimeout ||
          decide (elapsedMs > agentTimeoutMs + 1000)
        if timed_out then
          .finished ⟨some opponent, moves, "timeout",
            game_states ++
              [⟨moves, move_time_ms, "TIMEOUT(" ++ playerName ++ ")"⟩]⟩
        else if (match pieceOwner with
                 | some owner => owner != playerName
                 | none => false : Bool) then
          .finished ⟨some opponent, moves, invalidTerm,
            game_states ++
              [⟨moves, move_time_ms, "INVALID(" ++ playerName ++ ")"⟩]⟩
        else if pieceOwner = none || !hasMoveOpt then
          .finished ⟨some opponent, moves, invalidTerm,
            game_states ++
              [⟨moves, move_time_ms, "INVALID(" ++ playerName ++ ")"⟩]⟩
        else if !env.copySucceeds then
          .finished ⟨some opponent, moves, invalidTerm,
            game_states ++
              [⟨moves, move_time_ms, "INVALID(" ++ playerName ++ ")"⟩]⟩
        else
          let game_states' := game_states ++
            [⟨moves, move_time_ms, env.appliedLabel⟩]
          if env.nextLegalMoves = 0 then
            let winner := playerName
            let termination :=
              match env.gameResult with
              | some r => if containsStalemate r then "stalemate" else "checkmate"
              | none => "checkmate"
            .finished ⟨some winner, moves, termination, game_states'⟩
          else
            .nextPly game_states'

/-- The match loop of `run_hybrid_match` driven by a per-ply environment
oracle (`envs i` is the engine/agent report for ply `i`). `fuel`
counts the iterations left before `moves` reaches `max_moves = 500`
(line 139); exhaustion is the loop's `else` clause (lines 426-433). -/
def runPlies (agentTimeoutMs : Nat) (envs : Nat → PlyEnv) :
    Nat → Bool → Nat → List GameStateRow → MatchResult
  | 0, _, moves, game_states =>
    ⟨some "draw", moves, "max_moves", game_states⟩
  | fuel + 1, playerIsWhite, moves, game_states =>
    let moves' := moves + 1
    match plyStep agentTimeoutMs playerIsWhite (envs moves') moves' game_states with
    | .finished result => result
    | .nextPly game_states' =>
      runPlies agentTimeoutMs envs fuel (!playerIsWhite) moves' game_states'

/-- The whole game loop of `run_hybrid_match` for two successfully loaded
agents (hybrid_match_executor.py lines 131-433): white moves first,
`moves` starts at 0, `max_moves = 500`. -/
def run_hybrid_match (agentTimeoutMs : Nat) (envs : Nat → PlyEnv) : MatchResult :=
  runPlies agentTimeoutMs envs 500 true 0 []

/-! ## `src/executor/tasks/match_runner.py` — result finalization -/

/-- One SQL/bus operation issued by `run_match_task` after the executor
returns a result (match_runner.py lines 248-371). Only the operations of
that suffix are modelled; `kickScheduler` is the
`schedule_round_robin.delay()` re-kick and `enqueueRatingUpdate` the
`update_match_ratings.delay(match_id)` enqueue. -/
inductive DbOp where
  | deleteGameStates (match_id : String)
  | deleteMatch (match_id : String)
  | insertGameState (match_id : String) (row : GameStateRow)
  | updateCompleted (match_id : String) (winner : Option String)
      (moves : Nat) (termination : String)
  | kickScheduler
  | enqueueRatingUpdate (match_id : String)
deriving DecidableEq, Repr

/-- The error terminations tested at match_runner.py line 273. -/
def isErrorTermination (t : String) : Bool :=
  t = "error" || t = "white_error" || t = "black_error" ||
    t = "system_error" || t = "stuck_timeout"

/-- The conditional matchmaking re-kick
`schedule_round_robin.delay() if not is_tournament_time() else None`
(match_runner.py lines 267-268, 294-295, 347-348, 369-370). -/
def kickOps (match_type : String) (tournamentTime : Bool) : List DbOp :=
  if match_type = "matchmaking" && !tournamentTime then [.kickScheduler] else []

/-- The operations `run_match_task` issues once the executor's `result`
is in hand (match_runner.py lines 248-371): the cancelled path deletes
game states then the match row (lines 248-269); the short error path
does the same for error terminations with fewer than 4 moves (lines
271-296); otherwise the batch insert of game states runs unless the
tournament live callback already saved them (lines 298-325,
`use_live_callback` is `match_type == 'tournament'`, line 214); a result
with `moves <= 3` is then deleted the same way (lines 327-349); finally
the match row is updated to `completed` and rating update / re-kick are
enqueued (lines 351-371). -/
def finalizeOps (match_id : String) (match_type : String)
    (tournamentTime : Bool) (result : MatchResult) : List DbOp :=
  let use_live_callback := match_type = "tournament"
  if result.termination = "cancelled" then
    [.deleteGameStates match_id, .deleteMatch match_id] ++
      kickOps match_type tournamentTime
  else if isErrorTermination result.termination && result.moves < 4 then
    [.deleteGameStates match_id, .deleteMatch match_id] ++
      kickOps match_type tournamentTime
  else
    (if !use_live_callback then
      result.game_states.map (fun row => .insertGameState match_id row)
    else []) ++
    (if result.moves ≤ 3 then
      [.deleteGameStates match_id, .deleteMatch match_id] ++
        kickOps match_type tournamentTime
    else
      [.updateCompleted match_id result.winner result.moves result.termination] ++
      (if match_type = "matchmaking" || match_type = "tournament" then
        [.enqueueRatingUpdate match_id] ++
          (if match_type = "matchmaking" then kickOps match_type tournamentTime
           else [])
      else []))

/-- A `matches` row as `run_match_task` writes it. -/
structure MatchRow where
  id : String
  status : String
  winner : Option String
  moves : Nat
  termination : String
deriving DecidableEq, Repr

/-- The persistent store slice the finalization code touches: the
`matches` table (field `match_rows`, since `matches` is reserved in
Lean) and the `game_states` table (rows keyed by match id). -/
structure Store where
  match_rows : List MatchRow
  game_states : List (String × GameStateRow)
deriving DecidableEq, Repr

/-- Apply one operation to the store. `insertGameState` honors the
`ON CONFLICT (match_id, move_number) DO NOTHING` clause (match_runner.py
lines 306-309); `updateCompleted` performs the `UPDATE matches SET
status = 'completed', winner, moves, termination WHERE id = match_id`
(lines 352-360); the task enqueues touch no tables. -/
def applyOp (s : Store) : DbOp → Store
  | .deleteGameStates match_id =>
    { s with game_states := s.game_states.filter (fun p => p.1 ≠ match_id) }
  | .deleteMatch match_id =>
    { s with match_rows := s.match_rows.filter (fun r => r.id ≠ match_id) }
  | .insertGameState match_id row =>
    if s.game_states.any (fun p =>
        p.1 = match_id && p.2.move_number = row.move_number) then s
    else { s with game_states := s.game_states ++ [(match_id, row)] }
  | .updateCompleted match_id winner moves termination =>
    { s with match_rows := s.match_rows.map (fun r =>
        if r.id = match_id then
          { r with status := "completed", winner := winner, moves := moves,
                   termination := termination }
        else r) }
  | .kickScheduler => s
  | .enqueueRatingUpdate _ => s

/-- Apply a list of operations left to right. -/
def applyOps (s : Store) (ops : List DbOp) : Store :=
  ops.foldl applyOp s

/-! ## Theorems: cancellation, short games, timeouts, no-moves plies -/

/-- Helper: the scheduler re-kick enqueue touches no tables. -/
theorem applyOps_kickOps (s : Store) (match_type : String) (tournamentTime : Bool) :
    applyOps s (kickOps match_type tournamentTime) = s := by
  unfold kickOps
  split <;> rfl

/-- Helper: `applyOps` distributes over list append. -/
theorem applyOps_append (s : Store) (l1 l2 : List DbOp) :
    applyOps s (l1 ++ l2) = applyOps (applyOps s l1) l2 :=
  List.foldl_append _ _ _ _

/-- Helper: after deleting the game states and then the match row of
`match_id`, no row of either table refers to `match_id`. -/
theorem applyOp_deletes_clear (s : Store) (match_id : String) :
    (∀ row ∈ (applyOp (applyOp s (.deleteGameStates match_id))
        (.deleteMatch match_id)).match_rows, row.id ≠ match_id) ∧
    (∀ p ∈ (applyOp (applyOp s (.deleteGameStates match_id))
        (.deleteMatch match_id)).game_states, p.1 ≠ match_id) := by
  constructor
  · intro row hrow
    simp only [applyOp, List.mem_filter] at hrow
    simpa using hrow.2
  · intro p hp
    simp only [applyOp, List.mem_filter] at hp
    simpa using hp.2

/-- C2: a disconnect of the moving agent's session makes the executor's
loop iteration finish the match as `cancelled` with no winner, zero
moves and no game states; and for any `cancelled` result the runner's
finalization leaves no match row and no game-state row for the match id
in the store and never issues the completed-outcome update. -/
theorem disconnect_cancels_and_deletes :
    (∀ (agentTimeoutMs : Nat) (playerIsWhite : Bool) (env : PlyEnv)
        (moves : Nat) (game_states : List GameStateRow) (reason : String),
      env.plyRaises = none → env.legalMoves ≠ 0 →
      env.agentReply = .disconnected reason →
      plyStep agentTimeoutMs playerIsWhite env moves game_states =
        .finished ⟨none, 0, "cancelled", []⟩) ∧
    (∀ (s : Store) (match_id match_type : String) (tournamentTime : Bool)
        (result : MatchResult),
      result.termination = "cancelled" →
      (∀ row ∈ (applyOps s
          (finalizeOps match_id match_type tournamentTime result)).match_rows,
        row.id ≠ match_id) ∧
      (∀ p ∈ (applyOps s
          (finalizeOps match_id match_type tournamentTime result)).game_states,
        p.1 ≠ match_id) ∧
      (∀ winner moves termination,
        DbOp.updateCompleted match_id winner moves termination ∉
          finalizeOps match_id match_type tournamentTime result)) := by
  constructor
  · intro agentTimeoutMs playerIsWhite env moves game_states reason hr hl ha
    simp [plyStep, hr, hl, ha]
  · intro s match_id match_type tournamentTime result hterm
    have hops : finalizeOps match_id match_type tournamentTime result =
        [.deleteGameStates match_id, .deleteMatch match_id] ++
          kickOps match_type tournamentTime := by
      simp [finalizeOps, hterm]
    refine ⟨?_, ?_, ?_⟩
    · rw [hops, applyOps_append, applyOps_kickOps]
      exact (applyOp_deletes_clear s match_id).1
    · rw [hops, applyOps_append, applyOps_kickOps]
      exact (applyOp_deletes_clear s match_id).2
    · intro winner moves termination
      rw [hops]
      simp [kickOps]

/-- Witness for `disconnect_cancels_and_deletes`: a concrete disconnected
ply cancels, and after finalizing a cancelled result the concrete match
row is gone from the store. -/
theorem disconnect_cancels_and_deletes_witness :
    plyStep 14000 true ⟨4, none, .disconnected "gone", true, "K(2,2)", 4, none⟩
        6 [] = .finished ⟨none, 0, "cancelled", []⟩ ∧
    MatchRow.mk "m1" "in_progress" none 5 "" ∉
      (applyOps ⟨[⟨"m1", "in_progress", none, 5, ""⟩], [("m1", ⟨1, 100, "K(2,2)"⟩)]⟩
        (finalizeOps "m1" "matchmaking" false
          ⟨none, 0, "cancelled", []⟩)).match_rows := by
  constructor
  · exact disconnect_cancels_and_deletes.1 14000 true
      ⟨4, none, .disconnected "gone", true, "K(2,2)", 4, none⟩ 6 [] "gone"
      rfl (by decide) rfl
  · intro hmem
    exact (disconnect_cancels_and_deletes.2
      ⟨[⟨"m1", "in_progress", none, 5, ""⟩], [("m1", ⟨1, 100, "K(2,2)"⟩)]⟩
      "m1" "matchmaking" false ⟨none, 0, "cancelled", []⟩ rfl).1 _ hmem rfl

/-- Helper: the only operation the conditional re-kick can contain is the
scheduler enqueue. -/
theorem mem_kickOps (op : DbOp) (match_type : String) (tournamentTime : Bool) :
    op ∈ kickOps match_type tournamentTime → op = .kickScheduler := by
  intro h
  unfold kickOps at h
  split at h
  · simpa using h
  · cases h

/-- C3: the runner's finalization writes `status = completed` only with
`moves ≥ 4` (the update op carries exactly `result.moves` and only
appears when it is at least 4); and for every result with `moves ≤ 3`
the trace contains the game-state deletion immediately before the
match-row deletion, contains no completed-outcome update, and the final
store retains no row of either table for the match id. -/
theorem completed_requires_min_moves :
    (∀ (match_id match_type : String) (tournamentTime : Bool)
        (result : MatchResult) (winner : Option String) (m : Nat) (t : String),
      DbOp.updateCompleted match_id winner m t ∈
        finalizeOps match_id match_type tournamentTime result →
      m = result.moves ∧ 4 ≤ result.moves) ∧
    (∀ (match_id match_type : String) (tournamentTime : Bool)
        (result : MatchResult),
      result.moves ≤ 3 →
      (∃ l1 l2, finalizeOps match_id match_type tournamentTime result =
        l1 ++ ([.deleteGameStates match_id, .deleteMatch match_id] ++ l2)) ∧
      (∀ (winner : Option String) (m : Nat) (t : String),
        DbOp.updateCompleted match_id winner m t ∉
          finalizeOps match_id match_type tournamentTime result) ∧
      (∀ s : Store,
        (∀ row ∈ (applyOps s
            (finalizeOps match_id match_type tournamentTime result)).match_rows,
          row.id ≠ match_id) ∧
        (∀ p ∈ (applyOps s
            (finalizeOps match_id match_type tournamentTime result)).game_states,
          p.1 ≠ match_id))) := by
  have hshape : ∀ (match_id match_type : String) (tournamentTime : Bool)
      (result : MatchResult), result.moves ≤ 3 →
      ∃ l1, finalizeOps match_id match_type tournamentTime result =
        l1 ++ ([.deleteGameStates match_id, .deleteMatch match_id] ++
          kickOps match_type tournamentTime) ∧
        (∀ op ∈ l1, ∃ r, op = DbOp.insertGameState match_id r) := by
    intro match_id match_type tournamentTime result h3
    unfold finalizeOps
    by_cases h1 : result.termination = "cancelled"
    · exact ⟨[], by simp [h1], by simp⟩
    · by_cases h2 : (isErrorTermination result.termination &&
          decide (result.moves < 4)) = true
      · refine ⟨[], ?_, by simp⟩
        simp [h1, h2]
      · refine ⟨if match_type = "tournament" then [] else
          result.game_states.map (fun row => .insertGameState match_id row), ?_, ?_⟩
        · simp only [h1, h2, if_neg, if_false]
          rw [if_pos h3]
          by_cases ht : match_type = "tournament" <;> simp [ht]
        · intro op hop
          split at hop
          · cases hop
          · obtain ⟨r, _, hr⟩ := List.mem_map.mp hop
            exact ⟨r, hr.symm⟩
  constructor
  · intro match_id match_type tournamentTime result winner m t hmem
    by_cases h3 : result.moves ≤ 3
    · obtain ⟨l1, heq, hl1⟩ := hshape match_id match_type tournamentTime result h3
      rw [heq] at hmem
      rcases List.mem_append.mp hmem with h | h
      · obtain ⟨r, hr⟩ := hl1 _ h
        cases hr
      · rcases List.mem_append.mp h with h' | h'
        · simp at h'
        · cases mem_kickOps _ _ _ h'
    · unfold finalizeOps at hmem
      by_cases hc : result.termination = "cancelled"
      · rw [if_pos hc] at hmem
        rcases List.mem_append.mp hmem with h | h
        · simp at h
        · cases mem_kickOps _ _ _ h
      · rw [if_neg hc] at hmem
        have herr : (isErrorTermination result.termination &&
            decide (result.moves < 4)) = false := by
          simp only [Bool.and_eq_false_iff]
          right
          simpa using (by omega : ¬ result.moves < 4)
        rw [if_neg (by simp [herr])] at hmem
        rw [if_neg h3] at hmem
        rcases List.mem_append.mp hmem with h | h
        · split at h
          · obtain ⟨r, _, hr⟩ := List.mem_map.mp h
            cases hr
          · cases h
        · rcases List.mem_append.mp h with h' | h'
          · have := List.mem_singleton.mp h'
            injection this with e1 e2 e3 e4
            exact ⟨e3, by omega⟩
          · split at h'
            · rcases List.mem_append.mp h' with h'' | h''
              · simp at h''
              · split at h''
                · cases mem_kickOps _ _ _ h''
                · cases h''
            · cases h'
  · intro match_id match_type tournamentTime result h3
    obtain ⟨l1, heq, hl1⟩ := hshape match_id match_type tournamentTime result h3
    refine ⟨⟨l1, kickOps match_type tournamentTime, heq⟩, ?_, ?_⟩
    · intro winner m t hmem
      rw [heq] at hmem
      rcases List.mem_append.mp hmem with h | h
      · obtain ⟨r, hr⟩ := hl1 _ h
        cases hr
      · rcases List.mem_append.mp h with h' | h'
        · simp at h'
        · cases mem_kickOps _ _ _ h'
    · intro s
      rw [heq, applyOps_append, applyOps_append, applyOps_kickOps]
      exact applyOp_deletes_clear (applyOps s l1) match_id

/-- Witness for `completed_requires_min_moves`: a 12-move checkmate
result does carry its move count into the completed update, and a 2-move
result's finalization never issues a completed update. -/
theorem completed_requires_min_moves_witness :
    ((12 : Nat) = 12 ∧ (4 : Nat) ≤ 12) ∧
    DbOp.updateCompleted "m3" (some "white") 2 "checkmate" ∉
      finalizeOps "m3" "matchmaking" false ⟨some "white", 2, "checkmate", []⟩ := by
  constructor
  · exact completed_requires_min_moves.1 "m2" "matchmaking" false
      ⟨some "white", 12, "checkmate", []⟩ (some "white") 12 "checkmate" (by decide)
  · exact (completed_requires_min_moves.2 "m3" "matchmaking" false
      ⟨some "white", 2, "checkmate", []⟩ (by decide)).2.1 (some "white") 2 "checkmate"

/-- C4 counterexample: with the default `agent_timeout` of 14 s, an
explicit timeout reply whose measured elapsed time is 2000 ms produces
the timeout forfeit, but the synthetic ply records `move_time_ms = 2000`
— the measured elapsed time — not `agent_timeout * 1000 = 14000` as the
claim states. -/
theorem timeout_ply_records_elapsed_counterexample :
    plyStep 14000 true ⟨5, none, .reply none true 2000 true, true, "K(2,2)", 5, none⟩
        1 [] =
      .finished ⟨some "black", 1, "timeout", [⟨1, 2000, "TIMEOUT(white)"⟩]⟩ ∧
    (2000 : Nat) ≠ 14000 := by
  exact ⟨rfl, by decide⟩

/-- C4 amended: when the mover times out on a ply — an explicit timeout
reply, or measured elapsed time above `agent_timeout` plus the 1 s check
buffer — the match ends with winner = opponent and
termination = `timeout`, and the synthetic ply carries notation
`TIMEOUT(player)` with `move_time_ms` equal to the measured elapsed time
in milliseconds (`int(elapsed * 1000)`), not `agent_timeout * 1000`. -/
theorem timeout_forfeits_to_opponent (agentTimeoutMs : Nat)
    (playerIsWhite : Bool) (env : PlyEnv) (moves : Nat)
    (game_states : List GameStateRow) (pieceOwner : Option String)
    (hasMoveOpt : Bool) (elapsedMs : Nat) (explicitTimeout : Bool)
    (hr : env.plyRaises = none) (hl : env.legalMoves ≠ 0)
    (ha : env.agentReply = .reply pieceOwner hasMoveOpt elapsedMs explicitTimeout)
    (ht : explicitTimeout = true ∨ elapsedMs > agentTimeoutMs + 1000) :
    plyStep agentTimeoutMs playerIsWhite env moves game_states =
      .finished ⟨some (if playerIsWhite then "black" else "white"), moves,
        "timeout",
        game_states ++ [⟨moves, elapsedMs,
          "TIMEOUT(" ++ (if playerIsWhite then "white" else "black") ++ ")"⟩]⟩ := by
  have htimed : (explicitTimeout || decide (elapsedMs > agentTimeoutMs + 1000)) =
      true := by
    rcases ht with h | h <;> simp [h]
  simp [plyStep, hr, hl, ha, htimed]

/-- Witness for `timeout_forfeits_to_opponent`: a black ply whose elapsed
time of 15500 ms exceeds 14000 + 1000 ms forfeits to white with the
synthetic ply recording the 15500 ms. -/
theorem timeout_forfeits_to_opponent_witness :
    plyStep 14000 false
        ⟨7, none, .reply (some "black") true 15500 false, true, "Q(1,1)", 7, none⟩
        4 [] =
      .finished ⟨some "white", 4, "timeout", [⟨4, 15500, "TIMEOUT(black)"⟩]⟩ := by
  have h := timeout_forfeits_to_opponent 14000 false
    ⟨7, none, .reply (some "black") true 15500 false, true, "Q(1,1)", 7, none⟩
    4 [] (some "black") true 15500 false rfl (by decide) rfl
    (Or.inr (by decide))
  simpa using h

/-- C7 counterexample: a mover with no legal moves ends the game with
winner = opponent but termination `no_moves`, not `stalemate` as the
claim states (hybrid_match_executor.py line 156). -/
theorem no_moves_termination_counterexample :
    plyStep 14000 true ⟨0, none, .reply none true 0 false, true, "", 0, none⟩
        3 [] =
      .finished ⟨some "black", 3, "no_moves", []⟩ ∧
    ("no_moves" : String) ≠ "stalemate" := by
  exact ⟨rfl, by decide⟩

/-- C7 amended: during a ply, if the set of legal moves enumerated for
the mover is empty, the game ends immediately with winner = opponent and
termination = `no_moves`. -/
theorem no_legal_moves_ends_game (agentTimeoutMs : Nat)
    (playerIsWhite : Bool) (env : PlyEnv) (moves : Nat)
    (game_states : List GameStateRow)
    (hr : env.plyRaises = none) (hl : env.legalMoves = 0) :
    plyStep agentTimeoutMs playerIsWhite env moves game_states =
      .finished ⟨some (if playerIsWhite then "black" else "white"), moves,
        "no_moves", game_states⟩ := by
  simp [plyStep, hr, hl]

/-- Witness for `no_legal_moves_ends_game`: a concrete black ply with no
legal moves loses to white with termination `no_moves`. -/
theorem no_legal_moves_ends_game_witness :
    plyStep 14000 false ⟨0, none, .reply none true 0 false, true, "", 0, none⟩
        8 [] =
      .finished ⟨some "white", 8, "no_moves", []⟩ := by
  have h := no_legal_moves_ends_game 14000 false
    ⟨0, none, .reply none true 0 false, true, "", 0, none⟩ 8 [] rfl rfl
  simpa using h

/-! ## `src/executor/tasks/match_runner.py` — matchmaking scheduling -/

/-- The `for attempt in range(max_attempts)` loop of
`schedule_round_robin` (match_runner.py lines 507-602), abstracted over
the pairing it selects at each attempt: `pairings i = some both_local`
says the ELO search (with its fallback, lines 517-556) produced a pair
at attempt `i` whose two agents are both local iff `both_local` (line
567); `none` models the `if not matched_pair: break` guard (line 552).
Returns the `both_local` flag of each inserted match, in insertion
order, together with the final `slots_available` (an `Int`, as in
Python). The pre-insert guard at line 570 and the decrement at lines
584-586 are kept as written. -/
def rrLoop (pairings : Nat → Option Bool) :
    Nat → Nat → Int → List Bool → List Bool × Int
  | 0, _, slots, inserted => (inserted, slots)
  | fuel + 1, i, slots, inserted =>
    if slots ≤ 0 then (inserted, slots)
    else
      match pairings i with
      | none => (inserted, slots)
      | some both_local =>
        if !both_local && slots ≤ 0 then (inserted, slots)
        else
          rrLoop pairings fuel (i + 1)
            (if both_local then slots else slots - 1)
            (inserted ++ [both_local])

/-- `schedule_round_robin` (match_runner.py lines 398-604) reduced to
its insertions: the tournament-mode guard (line 405), the
`len(all_agents) < 2` guard (line 486), `slots_available = MAX_MATCHES -
current_matches` (line 491) with the `slots_available <= 0` early return
(line 496), and `max_attempts = min(3, slots_available)` (line 501)
driving the attempt loop. Returns the `both_local` flag of each match
inserted this tick. -/
def schedule_round_robin_inserts (tournamentTime : Bool)
    (maxMatches currentMatches numAgents : Nat)
    (pairings : Nat → Option Bool) : List Bool :=
  if tournamentTime then []
  else if numAgents < 2 then []
  else
    let slots_available : Int := (maxMatches : Int) - (currentMatches : Int)
    if slots_available ≤ 0 then []
    else (rrLoop pairings (min 3 slots_available).toNat 0 slots_available []).1

/-- Helper for C8: the attempt loop appends at most `fuel` insertions and
its final slot counter is the initial one minus the number of inserted
pairings that were not local-vs-local. -/
theorem rrLoop_accounting (pairings : Nat → Option Bool) :
    ∀ (fuel i : Nat) (slots : Int) (inserted : List Bool),
    ∃ extra : List Bool,
      rrLoop pairings fuel i slots inserted =
        (inserted ++ extra,
          slots - (extra.countP (fun b => b = false) : Int)) ∧
      extra.length ≤ fuel := by
  intro fuel
  induction fuel with
  | zero =>
    intro i slots inserted
    exact ⟨[], by simp [rrLoop], by simp⟩
  | succ fuel ih =>
    intro i slots inserted
    by_cases hs : slots ≤ 0
    · exact ⟨[], by simp [rrLoop, hs], by simp⟩
    · match hp : pairings i with
      | none => exact ⟨[], by simp [rrLoop, hs, hp], by simp⟩
      | some both_local =>
        obtain ⟨extra, heq, hlen⟩ := ih (i + 1)
          (if both_local then slots else slots - 1) (inserted ++ [both_local])
        refine ⟨both_local :: extra, ?_, by simpa using hlen⟩
        have hguard : (!both_local && decide (slots ≤ 0)) = false := by
          simp [hs]
        simp only [rrLoop, if_neg hs, hp, hguard, Bool.false_eq_true, if_false,
          heq]
        rw [Prod.mk.injEq]
        refine ⟨by simp, ?_⟩
        cases both_local
        · simp [List.countP_cons]
          ring
        · simp [List.countP_cons]

/-- C8: on a matchmaking tick with capacity `maxMatches` and
`currentMatches` active matchmaking matches, the scheduler inserts at
most `min 3 (maxMatches - currentMatches)` new matches; and across the
attempt loop the slot counter drops by exactly the number of inserted
pairings that involve at least one server agent — a local-vs-local
pairing never decrements it. -/
theorem schedule_round_robin_slot_discipline :
    (∀ (tournamentTime : Bool) (maxMatches currentMatches numAgents : Nat)
        (pairings : Nat → Option Bool),
      (schedule_round_robin_inserts tournamentTime maxMatches currentMatches
        numAgents pairings).length ≤ min 3 (maxMatches - currentMatches)) ∧
    (∀ (pairings : Nat → Option Bool) (fuel i : Nat) (slots : Int)
        (inserted : List Bool),
      ∃ extra : List Bool,
        rrLoop pairings fuel i slots inserted =
          (inserted ++ extra,
            slots - (extra.countP (fun b => b = false) : Int))) := by
  constructor
  · intro tournamentTime maxMatches currentMatches numAgents pairings
    unfold schedule_round_robin_inserts
    by_cases ht : tournamentTime
    · simp [ht]
    · by_cases hn : numAgents < 2
      · simp [ht, hn]
      · simp only [ht, hn, if_false]
        by_cases hs : (maxMatches : Int) - (currentMatches : Int) ≤ 0
        · simp [hs]
        · rw [if_neg hs]
          obtain ⟨extra, heq, hlen⟩ := rrLoop_accounting pairings
            (min 3 ((maxMatches : Int) - (currentMatches : Int))).toNat 0
            ((maxMatches : Int) - (currentMatches : Int)) []
          rw [heq]
          simp only [List.nil_append]
          calc extra.length
              ≤ (min 3 ((maxMatches : Int) - (currentMatches : Int))).toNat :=
                hlen
            _ ≤ min 3 (maxMatches - currentMatches) := by omega
  · intro pairings fuel i slots inserted
    obtain ⟨extra, heq, _⟩ := rrLoop_accounting pairings fuel i slots inserted
    exact ⟨extra, heq⟩

/-! ## C6: the per-move live-persistence callback -/

/-- The parameter names of `run_hybrid_match` as defined
(hybrid_match_executor.py lines 33-35). -/
def run_hybrid_match_param_names : List String :=
  ["white_agent_id", "white_code", "white_execution_mode", "white_name",
   "black_agent_id", "black_code", "black_execution_mode", "black_name",
   "board_sample", "match_id"]

/-- The parameter names of `run_match_local` as defined
(agent_executor.py line 74). -/
def run_match_local_param_names : List String :=
  ["white_code", "black_code", "board_sample"]

/-- The keyword arguments `run_match_task` passes in its call to
`run_hybrid_match` (match_runner.py lines 226-238). -/
def run_match_task_hybrid_call_keywords : List String :=
  ["white_agent_id", "white_code", "white_execution_mode", "white_name",
   "black_agent_id", "black_code", "black_execution_mode", "black_name",
   "board_sample", "match_id", "on_move_callback"]

/-- The keyword arguments `run_match_task` passes in its call to
`run_match_local` beyond the three positional ones (match_runner.py
lines 241-246). -/
def run_match_task_local_call_keywords : List String :=
  ["on_move_callback"]

/-- C6: the runner passes an `on_move_callback` keyword to both executor
entry points, but neither `run_hybrid_match` nor `run_match_local`
declares such a parameter — the per-ply live-persistence callback the
spec describes for tournament matches cannot be received (in Python the
calls raise `TypeError: unexpected keyword argument`), so no ply is ever
persisted through it. -/
theorem on_move_callback_not_accepted :
    "on_move_callback" ∈ run_match_task_hybrid_call_keywords ∧
    "on_move_callback" ∈ run_match_task_local_call_keywords ∧
    "on_move_callback" ∉ run_hybrid_match_param_names ∧
    "on_move_callback" ∉ run_match_local_param_names ∧
    ¬ (∀ kw ∈ run_match_task_hybrid_call_keywords,
        kw ∈ run_hybrid_match_param_names) := by
  refine ⟨by decide, by decide, by decide, by decide, ?_⟩
  intro h
  exact absurd (h "on_move_callback" (by decide)) (by decide)
